import Mathlib

/-!
Verification development for the chat backend (server.ts and index2.ts).

The repository is an Express backend persisting chats and messages in a
relational store and relaying a streaming model response to the caller as
server-sent events.  The definitions below are a shallow embedding of the
route handlers and of the helper handleChatMessages, translated directly
from the TypeScript source.  Timestamps are modelled by a Nat clock held in
the database state; every SQL write that stamps a row with NOW() first
advances the clock, reflecting that successive commits receive later
timestamps.  JS string truthiness (the empty string is falsy) is modelled
explicitly at each use site.
-/

namespace ChatBackend

/-- One element of the structured `parts` array of an incoming message
(interface ChatRequest in server.ts / index2.ts). -/
structure MsgPart where
  ptype : String
  text : String
deriving Repr, DecidableEq

/-- An incoming message object of the request body: role, an optional
structured parts array and an optional flat content field. -/
structure InMessage where
  role : String
  parts : Option (List MsgPart)
  content : Option String
deriving Repr, DecidableEq

/-- JS expression `m.parts?.[0]?.text` normalised to the empty string when
the parts array is absent or empty (both are falsy in the source). -/
def partsText (m : InMessage) : String :=
  match m.parts with
  | some (p :: _) => p.text
  | _ => ""

/-- JS expression `m.content` normalised to the empty string when absent. -/
def contentText (m : InMessage) : String :=
  m.content.getD ""

/-- Selection of the current user message, server.ts line 399 and
index2.ts lines 323 to 325: `messages.filter(m => m.role === "user").pop()`,
that is the last entry of the batch whose role is user. -/
def currentUserMessage (messages : List InMessage) : Option InMessage :=
  (messages.filter (fun m => m.role == "user")).getLast?

/-- Text extraction of server.ts line 405:
`currentUserMessage.content || ""`.  The parts array is not consulted. -/
def serverExtractText (m : InMessage) : String :=
  contentText m

/-- Text extraction of index2.ts line 333:
`currentUserMessage.parts?.[0]?.text || currentUserMessage.content || ""`.
JS `||` falls through on the empty string, which is falsy. -/
def index2ExtractText (m : InMessage) : String :=
  if partsText m ≠ "" then partsText m else contentText m

/-- Modelled from the claim wording for C4 only: prefer the structured
multi-part text field when present (read as non-empty, matching JS
truthiness), else the flat content field, else the empty string.  This is
the specification-side extraction rule the source is compared against. -/
def extractTextSpec (m : InMessage) : String :=
  if partsText m ≠ "" then partsText m else contentText m

/-- JS `s.slice(0, n)`: the first n characters of s.  Embedded through the
character list of the string so that its length behaves structurally. -/
def sliceTo (n : Nat) (s : String) : String :=
  String.mk (s.data.take n)

/-- Title computation of the POST /chat route, server.ts lines 242 to 245:
`firstUserMessage?.parts?.[0]?.text?.slice(0, 50) ||
 firstUserMessage?.content?.slice(0, 50) || "New Chat"`.
A slice of a non-empty string by 50 is non-empty and a slice of the empty
string is empty, so JS truthiness of the sliced value coincides with
non-emptiness of the unsliced field. -/
def chatTitle (messages : List InMessage) : String :=
  match messages.find? (fun m => m.role == "user") with
  | none => "New Chat"
  | some m =>
      if sliceTo 50 (partsText m) ≠ "" then sliceTo 50 (partsText m)
      else if sliceTo 50 (contentText m) ≠ "" then sliceTo 50 (contentText m)
      else "New Chat"

/-- Events written to the event-stream response: the per-fragment
text-delta event, the terminal DONE marker and the in-stream error event. -/
inductive SSEEvent where
  | textDelta (s : String)
  | done
  | errEvent (details : String)
deriving Repr, DecidableEq

/-- Streaming loop of server.ts lines 464 to 472 (identical in index2.ts
lines 399 to 412): one left-to-right pass over the fragment sequence; a
fragment with falsy (empty) content is skipped, any other fragment is
appended to the accumulator and written as one text-delta event. -/
def streamLoop (fragments : List String) : List SSEEvent × String :=
  fragments.foldl
    (fun acc c =>
      if c ≠ "" then (acc.1 ++ [SSEEvent.textDelta c], acc.2 ++ c) else acc)
    ([], "")

/-- Left-to-right concatenation of a fragment sequence. -/
def concatFragments : List String → String
  | [] => ""
  | c :: cs => c ++ concatFragments cs

/-- JS `s.trim()` is falsy exactly when every character of s is whitespace
(including the case of the empty string).  The source guards the assistant
insert with `if (fullResponse.trim())`. -/
def isBlank (s : String) : Bool :=
  s.data.all Char.isWhitespace

/-- Row of the chats table: id SERIAL, title, created_at and updated_at
both defaulting to NOW() at insertion (server.ts lines 80 to 87). -/
structure Chat where
  id : Nat
  title : String
  created_at : Nat
  updated_at : Nat
deriving Repr, DecidableEq

/-- Row of the messages table: id SERIAL, chat_id referencing chats(id)
with ON DELETE CASCADE, role, content, created_at DEFAULT NOW()
(server.ts lines 90 to 98). -/
structure DBMessage where
  id : Nat
  chat_id : Nat
  role : String
  content : String
  created_at : Nat
deriving Repr, DecidableEq

/-- Database state: the two tables, the serial counters and a Nat clock
standing for NOW().  Rows are kept in insertion order; because every
timestamped write first advances the clock, insertion order coincides with
created_at order, so ORDER BY created_at ASC is the identity on the lists
kept here. -/
structure DB where
  chats : List Chat
  messages : List DBMessage
  nextChatId : Nat
  nextMsgId : Nat
  now : Nat
deriving Repr, DecidableEq

/-- Clock advance performed by every write that stamps a row with NOW(). -/
def DB.tick (db : DB) : DB :=
  { db with now := db.now + 1 }

/-- The empty database produced by initializeDatabase (both tables freshly
created, server.ts lines 71 to 105). -/
def emptyDB : DB :=
  ⟨[], [], 0, 0, 0⟩

/-- INSERT INTO chats (title) VALUES (...) RETURNING *: a fresh serial id,
created_at and updated_at both set to NOW(). -/
def insertChat (db : DB) (title : String) : DB × Chat :=
  let db := db.tick
  let c : Chat := ⟨db.nextChatId, title, db.now, db.now⟩
  ({ db with chats := db.chats ++ [c], nextChatId := db.nextChatId + 1 }, c)

/-- INSERT INTO messages (chat_id, role, content) VALUES (...): a fresh
serial id and created_at set to NOW(). -/
def insertMessage (db : DB) (chatId : Nat) (role content : String) : DB :=
  let db := db.tick
  let m : DBMessage := ⟨db.nextMsgId, chatId, role, content, db.now⟩
  { db with messages := db.messages ++ [m], nextMsgId := db.nextMsgId + 1 }

/-- SELECT ... FROM messages WHERE chat_id = ? ORDER BY created_at ASC.
The stored list is already in created_at order (see DB). -/
def listMessages (db : DB) (chatId : Nat) : List DBMessage :=
  db.messages.filter (fun m => m.chat_id == chatId)

/-- UPDATE chats SET updated_at = NOW() WHERE id = ? (server.ts line 492). -/
def touchChat (db : DB) (chatId : Nat) : DB :=
  let db := db.tick
  { db with
    chats := db.chats.map (fun c =>
      if c.id == chatId then { c with updated_at := db.now } else c) }

/-- UPDATE chats SET title = ?, updated_at = NOW() WHERE id = ?
(server.ts lines 197 to 202). -/
def updateChatTitle (db : DB) (chatId : Nat) (title : String) : DB :=
  let db := db.tick
  { db with
    chats := db.chats.map (fun c =>
      if c.id == chatId then { c with title := title, updated_at := db.now }
      else c) }

/-- DELETE FROM chats WHERE id = ?; the messages of the chat go with it by
the ON DELETE CASCADE foreign key (server.ts line 223 and line 93). -/
def deleteChat (db : DB) (chatId : Nat) : DB :=
  { db with
    chats := db.chats.filter (fun c => c.id != chatId),
    messages := db.messages.filter (fun m => m.chat_id != chatId) }

/-- Predicate used by the routes that look a chat up by id. -/
def chatExists (db : DB) (chatId : Nat) : Bool :=
  db.chats.any (fun c => c.id == chatId)

/-- Rendering of one history entry inside the conversation context:
`role: content` followed by a blank line (the += of server.ts line 424). -/
def renderEntry (m : DBMessage) : String :=
  m.role ++ ": " ++ m.content ++ "\n\n"

/-- Fixed system preamble of the conversation context (server.ts line 422). -/
def preamble : String :=
  "You are a helpful AI assistant. Here is the conversation history:\n\n"

/-- Context construction of server.ts lines 422 to 426: the preamble, one
rendered entry per history row appended left to right, then the trailing
assistant cue. -/
def buildContext (history : List DBMessage) : String :=
  (history.foldl (fun acc m => acc ++ renderEntry m) preamble) ++ "assistant:"

/-- Context construction of index2.ts lines 372 to 380: as buildContext,
except that after the full history (which already contains the freshly
inserted user message) the current user message text is appended once more
before the assistant cue. -/
def buildContext2 (history : List DBMessage) (userMessageText : String) : String :=
  (history.foldl (fun acc m => acc ++ renderEntry m) preamble)
    ++ "user: " ++ userMessageText ++ "\n\nassistant:"

/-- Modelled from the claim wording for C5 only: the fixed preamble, each
history entry rendered as role: content separated by blank lines appearing
exactly once, then the trailing assistant cue. -/
def specContext (history : List DBMessage) : String :=
  preamble ++ concatFragments (history.map renderEntry) ++ "assistant:"

/-- Observable output channel of one invocation once the event stream is
open: the headers passed to writeHead (empty when res.write ran without an
explicit writeHead, so that the platform sent its implicit defaults), the
events written, and whether res.end() closed the channel. -/
structure StreamOut where
  headers : List (String × String)
  events : List SSEEvent
  ended : Bool
deriving Repr, DecidableEq

/-- Response observed by the caller: either a plain JSON response with a
status code, an error label and an optional details field, or an event
stream. -/
inductive Response where
  | json (status : Nat) (error : String) (details : Option String)
  | stream (out : StreamOut)
deriving Repr, DecidableEq

/-- Discriminator: did the caller receive a plain JSON body (as opposed to
an event stream)? -/
def Response.isJson : Response → Bool
  | Response.json _ _ _ => true
  | Response.stream _ => false

/-- Result of one handler invocation: the response sent, the database
afterwards, and the context string passed to model.stream when the run
reached that call. -/
structure RunResult where
  resp : Response
  db : DB
  contextSent : Option String
deriving Repr, DecidableEq

/-- Headers written by res.writeHead in handleChatMessages (server.ts
lines 453 to 459, index2.ts lines 388 to 394). -/
def sseHeaders (chatId : Nat) : List (String × String) :=
  [("Content-Type", "text/event-stream"),
   ("Cache-Control", "no-cache"),
   ("Connection", "keep-alive"),
   ("Access-Control-Allow-Origin", "*"),
   ("X-Chat-Id", toString chatId)]

/-- Oracle for the effectful phase of one server.ts invocation: which of
the awaited operations inside the try block fails, if any, and the fragment
sequence the model stream yields.  In server.ts the headers are written
before model.stream is awaited, so the two SQL operations are the only
pre-header failure points and every later failure happens with headers
already sent. -/
inductive GenEnv where
  | userInsertFails (msg : String)
  | historySelectFails (msg : String)
  | genFails (before : List String) (msg : String)
  | assistantInsertFails (fragments : List String) (msg : String)
  | touchFails (fragments : List String) (msg : String)
  | allOk (fragments : List String)
deriving Repr, DecidableEq

/-- Shallow embedding of handleChatMessages of server.ts lines 391 to 516.
Control flow of the source: pick the last user entry of the batch (400
when absent, before the try block); extract its text as content-or-empty;
then inside try: insert the user message, reselect the full history, build
the context, write the SSE headers, drive the stream appending non-empty
fragments and emitting one text-delta event each, write DONE, insert the
assistant message when the accumulated text has a non-whitespace character,
touch the chat, end.  The catch sends a 500 JSON body when headers were not
yet sent and otherwise writes an in-stream error event and ends. -/
def handleChatMessages (db : DB) (chatId : Nat) (messages : List InMessage)
    (env : GenEnv) : RunResult :=
  match currentUserMessage messages with
  | none => ⟨Response.json 400 "No user message provided" none, db, none⟩
  | some um =>
    let userMessageText := serverExtractText um
    match env with
    | GenEnv.userInsertFails msg =>
        ⟨Response.json 500 "AI Service Error" (some msg), db, none⟩
    | GenEnv.historySelectFails msg =>
        ⟨Response.json 500 "AI Service Error" (some msg),
         insertMessage db chatId "user" userMessageText, none⟩
    | GenEnv.genFails before msg =>
        let db1 := insertMessage db chatId "user" userMessageText
        let ctx := buildContext (listMessages db1 chatId)
        ⟨Response.stream
          ⟨sseHeaders chatId,
           (streamLoop before).1 ++ [SSEEvent.errEvent msg], true⟩,
         db1, some ctx⟩
    | GenEnv.assistantInsertFails frags msg =>
        let db1 := insertMessage db chatId "user" userMessageText
        let ctx := buildContext (listMessages db1 chatId)
        let full := (streamLoop frags).2
        if isBlank full then
          ⟨Response.stream
            ⟨sseHeaders chatId, (streamLoop frags).1 ++ [SSEEvent.done], true⟩,
           touchChat db1 chatId, some ctx⟩
        else
          ⟨Response.stream
            ⟨sseHeaders chatId,
             (streamLoop frags).1 ++ [SSEEvent.done, SSEEvent.errEvent msg],
             true⟩,
           db1, some ctx⟩
    | GenEnv.touchFails frags msg =>
        let db1 := insertMessage db chatId "user" userMessageText
        let ctx := buildContext (listMessages db1 chatId)
        let full := (streamLoop frags).2
        let db2 := if isBlank full then db1
                   else insertMessage db1 chatId "assistant" full
        ⟨Response.stream
          ⟨sseHeaders chatId,
           (streamLoop frags).1 ++ [SSEEvent.done, SSEEvent.errEvent msg],
           true⟩,
         db2, some ctx⟩
    | GenEnv.allOk frags =>
        let db1 := insertMessage db chatId "user" userMessageText
        let ctx := buildContext (listMessages db1 chatId)
        let full := (streamLoop frags).2
        let db2 := if isBlank full then db1
                   else insertMessage db1 chatId "assistant" full
        ⟨Response.stream
          ⟨sseHeaders chatId, (streamLoop frags).1 ++ [SSEEvent.done], true⟩,
         touchChat db2 chatId, some ctx⟩

/-- Oracle for the effectful phase of one index2.ts invocation inside its
try block.  In index2.ts model.stream is awaited before writeHead, so a
failure of the model call happens with nothing sent yet; the catch of
index2.ts lines 447 to 459 nevertheless writes the in-stream error event
unconditionally. -/
inductive Gen2Env where
  | streamOpenFails (msg : String)
  | gen2Fails (before : List String) (msg : String)
  | all2Ok (fragments : List String)
deriving Repr, DecidableEq

/-- Shallow embedding of handleChatMessages of index2.ts lines 310 to 460.
Differences from the server.ts version: the text extraction prefers the
parts field; the context appends the current user text once more after the
history; the user insert and history select run outside the try block (a
failure there propagates to the route catch and is not modelled by
Gen2Env); and the catch writes the error event and ends without checking
whether headers were sent, so a model-call failure that happens before
writeHead still answers with an event stream body (implicit headers,
modelled as the empty header list) rather than a 500 JSON body. -/
def handleChatMessages2 (db : DB) (chatId : Nat) (messages : List InMessage)
    (env : Gen2Env) : RunResult :=
  match currentUserMessage messages with
  | none => ⟨Response.json 400 "No user message provided" none, db, none⟩
  | some um =>
    let userMessageText := index2ExtractText um
    let db1 := insertMessage db chatId "user" userMessageText
    let ctx := buildContext2 (listMessages db1 chatId) userMessageText
    match env with
    | Gen2Env.streamOpenFails msg =>
        ⟨Response.stream ⟨[], [SSEEvent.errEvent msg], true⟩, db1, some ctx⟩
    | Gen2Env.gen2Fails before msg =>
        ⟨Response.stream
          ⟨sseHeaders chatId,
           (streamLoop before).1 ++ [SSEEvent.errEvent msg], true⟩,
         db1, some ctx⟩
    | Gen2Env.all2Ok frags =>
        let full := (streamLoop frags).2
        let db2 := if isBlank full then db1
                   else insertMessage db1 chatId "assistant" full
        ⟨Response.stream
          ⟨sseHeaders chatId, (streamLoop frags).1 ++ [SSEEvent.done], true⟩,
         touchChat db2 chatId, some ctx⟩

/-- Route POST /chat of server.ts lines 234 to 265: derive the title from
the first user entry of the batch, insert the new chat, then hand over to
handleChatMessages with the fresh id. -/
def postChatNew (db : DB) (messages : List InMessage) (env : GenEnv) :
    RunResult :=
  let title := chatTitle messages
  let inserted := insertChat db title
  handleChatMessages inserted.1 inserted.2.id messages env

/-- Route POST /chat/:chatId of server.ts lines 268 to 303: answer 404
when no chat with the id exists, otherwise hand over to
handleChatMessages. -/
def postChatExisting (db : DB) (chatId : Nat) (messages : List InMessage)
    (env : GenEnv) : RunResult :=
  if chatExists db chatId then handleChatMessages db chatId messages env
  else ⟨Response.json 404 "Chat not found" none, db, none⟩

/-- Route DELETE /chats/:id of server.ts lines 218 to 231: run the delete
and answer 204 whether or not a chat with the id existed. -/
def deleteChatRoute (db : DB) (chatId : Nat) : Nat × DB :=
  (204, deleteChat db chatId)

/-- Result of the GET /chats/:id route: the chat row together with its
ordered messages, or the 404 not-found answer. -/
inductive GetChatResult where
  | found (chat : Chat) (messages : List DBMessage)
  | notFound
deriving Repr, DecidableEq

/-- Route GET /chats/:id of server.ts lines 130 to 168: 404 when no chat
with the id exists, otherwise the chat row plus its ordered messages. -/
def getChat (db : DB) (chatId : Nat) : GetChatResult :=
  match db.chats.find? (fun c => c.id == chatId) with
  | some c => GetChatResult.found c (listMessages db chatId)
  | none => GetChatResult.notFound

/-- Store operations that affect chat rows, for the timestamp invariants:
chat creation (POST /chats or POST /chat), title update (PUT /chats/:id),
one completed message exchange (the persistence tail of a successful
handleChatMessages run), and chat deletion (DELETE /chats/:id). -/
inductive StoreOp where
  | createChat (title : String)
  | retitle (chatId : Nat) (title : String)
  | sendExchange (chatId : Nat) (userText : String) (fragments : List String)
  | removeChat (chatId : Nat)
deriving Repr, DecidableEq

/-- Effect of one store operation on the database, each case translated
from the corresponding route code. -/
def applyOp (db : DB) : StoreOp → DB
  | StoreOp.createChat t => (insertChat db t).1
  | StoreOp.retitle id t => updateChatTitle db id t
  | StoreOp.sendExchange id txt frags =>
      let db1 := insertMessage db id "user" txt
      let full := (streamLoop frags).2
      let db2 := if isBlank full then db1
                 else insertMessage db1 id "assistant" full
      touchChat db2 id
  | StoreOp.removeChat id => deleteChat db id

/-- Effect of a whole operation sequence, left to right. -/
def applyOps (db : DB) (ops : List StoreOp) : DB :=
  ops.foldl applyOp db

/-- Well-formedness of a database state: every chat satisfies the
timestamp inequalities against the clock and carries an id below the
serial counter, and chat ids are distinct. -/
def DB.wf (db : DB) : Prop :=
  (∀ c ∈ db.chats,
    c.created_at ≤ c.updated_at ∧ c.updated_at ≤ db.now ∧ c.id < db.nextChatId)
  ∧ (db.chats.map (fun c => c.id)).Nodup

instance (db : DB) : Decidable db.wf := by
  unfold DB.wf
  infer_instance

/-- Contents of the user-role rows of the messages table, in order. -/
def userContents (db : DB) : List String :=
  (db.messages.filter (fun m => m.role == "user")).map (fun m => m.content)

/-- Contents of the assistant-role rows of the messages table, in order. -/
def assistantContents (db : DB) : List String :=
  (db.messages.filter (fun m => m.role == "assistant")).map (fun m => m.content)

/-- Concrete fixture: a database holding one chat with id 0. -/
def db0 : DB :=
  (insertChat emptyDB "T").1

/-- Concrete fixture: a plain user message with flat content only. -/
def msgHi : InMessage :=
  ⟨"user", none, some "Hi"⟩

/-- Concrete fixture: a user message carrying its text only in the
structured parts array, with no flat content field. -/
def msgParts : InMessage :=
  ⟨"user", some [⟨"text", "Hello"⟩], none⟩

/-- Concrete fixture: a sixty character content string. -/
def s60 : String :=
  "012345678901234567890123456789012345678901234567890123456789"

/-- Concrete fixture: the streamed output of a successful POST /chat run on
db0 with the single fragment X (the fresh chat receives id 1). -/
def out0 : StreamOut :=
  ⟨sseHeaders 1, [SSEEvent.textDelta "X", SSEEvent.done], true⟩

/-- Generalised unfolding of the streaming loop over any starting
accumulator pair. -/
theorem streamLoop_foldl (fs : List String) (evs : List SSEEvent) (acc : String) :
    fs.foldl
      (fun a c =>
        if c ≠ "" then (a.1 ++ [SSEEvent.textDelta c], a.2 ++ c) else a)
      (evs, acc)
      = (evs ++ (fs.filter (fun c => c != "")).map SSEEvent.textDelta,
         acc ++ concatFragments (fs.filter (fun c => c != ""))) := by
  induction fs generalizing evs acc with
  | nil => simp [concatFragments, String.append_empty]
  | cons c cs ih =>
    by_cases hc : c = ""
    · subst hc
      simpa using ih evs acc
    · simp only [List.foldl_cons, if_pos hc, List.filter_cons,
        bne_iff_ne, ne_eq, hc, not_false_eq_true, if_true, List.map_cons,
        concatFragments, ih, List.append_assoc, List.singleton_append,
        String.append_assoc]

/-- Closed form of the streaming loop: one text-delta event per non-empty
fragment in order, and the accumulator is the concatenation of the
non-empty fragments. -/
theorem streamLoop_eq (fs : List String) :
    streamLoop fs
      = ((fs.filter (fun c => c != "")).map SSEEvent.textDelta,
         concatFragments (fs.filter (fun c => c != ""))) := by
  have h := streamLoop_foldl fs [] ""
  simpa [streamLoop, String.empty_append] using h

/-- Concatenation distributes over list append. -/
theorem concatFragments_append (a b : List String) :
    concatFragments (a ++ b) = concatFragments a ++ concatFragments b := by
  induction a with
  | nil => simp [concatFragments, String.empty_append]
  | cons c cs ih => simp [concatFragments, ih, String.append_assoc]

/-- Dropping the empty fragments does not change the concatenation. -/
theorem concatFragments_filter_ne (fs : List String) :
    concatFragments (fs.filter (fun c => c != "")) = concatFragments fs := by
  induction fs with
  | nil => rfl
  | cons c cs ih =>
    by_cases hc : c = ""
    · subst hc
      simpa [concatFragments, String.empty_append] using ih
    · simp [List.filter_cons, bne_iff_ne, hc, concatFragments, ih]

/-- Generalised unfolding of the context fold over any starting string. -/
theorem context_foldl (hist : List DBMessage) (acc : String) :
    hist.foldl (fun acc m => acc ++ renderEntry m) acc
      = acc ++ concatFragments (hist.map renderEntry) := by
  induction hist generalizing acc with
  | nil => simp [concatFragments, String.append_empty]
  | cons m ms ih =>
    simp [List.foldl_cons, ih, concatFragments, String.append_assoc]

/-- The context built by server.ts is exactly the context format of the
specification: preamble, each history entry rendered once in order, then
the assistant cue. -/
theorem buildContext_eq_specContext (hist : List DBMessage) :
    buildContext hist = specContext hist := by
  simp [buildContext, specContext, context_foldl]

/-- The context built by index2.ts renders the full history and then the
current user message text once more before the assistant cue. -/
theorem buildContext2_eq (hist : List DBMessage) (txt : String) :
    buildContext2 hist txt
      = preamble ++ concatFragments (hist.map renderEntry)
          ++ ("user: " ++ txt ++ "\n\n") ++ "assistant:" := by
  simp [buildContext2, context_foldl, String.append_assoc]

/-- Touching a chat leaves the messages table unchanged. -/
theorem touchChat_messages (db : DB) (chatId : Nat) :
    (touchChat db chatId).messages = db.messages := rfl

/-- Inserting a message leaves the chats table unchanged. -/
theorem insertMessage_chats (db : DB) (chatId : Nat) (r c : String) :
    (insertMessage db chatId r c).chats = db.chats := rfl

/-- Inserting a user message does not change the assistant rows. -/
theorem assistantContents_insert_user (db : DB) (chatId : Nat) (t : String) :
    assistantContents (insertMessage db chatId "user" t)
      = assistantContents db := by
  simp [assistantContents, insertMessage, DB.tick, List.filter_append]

/-- Inserting an assistant message appends its content to the assistant
rows. -/
theorem assistantContents_insert_assistant (db : DB) (chatId : Nat) (t : String) :
    assistantContents (insertMessage db chatId "assistant" t)
      = assistantContents db ++ [t] := by
  simp [assistantContents, insertMessage, DB.tick, List.filter_append]

/-- Inserting a user message appends its content to the user rows. -/
theorem userContents_insert_user (db : DB) (chatId : Nat) (t : String) :
    userContents (insertMessage db chatId "user" t)
      = userContents db ++ [t] := by
  simp [userContents, insertMessage, DB.tick, List.filter_append]

/-- Inserting an assistant message does not change the user rows. -/
theorem userContents_insert_assistant (db : DB) (chatId : Nat) (t : String) :
    userContents (insertMessage db chatId "assistant" t)
      = userContents db := by
  simp [userContents, insertMessage, DB.tick, List.filter_append]

/-- Touching a chat does not change the assistant rows. -/
theorem assistantContents_touch (db : DB) (chatId : Nat) :
    assistantContents (touchChat db chatId) = assistantContents db := rfl

/-- Touching a chat does not change the user rows. -/
theorem userContents_touch (db : DB) (chatId : Nat) :
    userContents (touchChat db chatId) = userContents db := rfl

/-- The accumulated text of the streaming loop is the concatenation of all
fragments. -/
theorem streamLoop_snd (frags : List String) :
    (streamLoop frags).2 = concatFragments frags := by
  rw [streamLoop_eq]
  exact concatFragments_filter_ne _

/-- Assistant rows produced by one successful server.ts invocation: the
accumulated text is appended exactly when it has a non-whitespace
character. -/
theorem run_assistantContents (db : DB) (chatId : Nat) (msgs : List InMessage)
    (um : InMessage) (frags : List String)
    (h : currentUserMessage msgs = some um) :
    assistantContents (handleChatMessages db chatId msgs (GenEnv.allOk frags)).db
      = assistantContents db
        ++ (if isBlank (concatFragments frags) then []
            else [concatFragments frags]) := by
  simp only [handleChatMessages, h, streamLoop_snd]
  by_cases hb : isBlank (concatFragments frags)
  · simp [hb, assistantContents_touch, assistantContents_insert_user]
  · simp only [hb, if_false, Bool.false_eq_true, assistantContents_touch,
      assistantContents_insert_assistant, assistantContents_insert_user]

/-- User rows produced by one successful server.ts invocation: exactly the
extracted text of the selected user message is appended. -/
theorem run_userContents (db : DB) (chatId : Nat) (msgs : List InMessage)
    (um : InMessage) (frags : List String)
    (h : currentUserMessage msgs = some um) :
    userContents (handleChatMessages db chatId msgs (GenEnv.allOk frags)).db
      = userContents db ++ [serverExtractText um] := by
  simp only [handleChatMessages, h]
  by_cases hb : isBlank ((streamLoop frags).2)
  · simp [hb, userContents_touch, userContents_insert_user]
  · simp [hb, userContents_touch, userContents_insert_assistant,
      userContents_insert_user]

/-- User rows produced by one successful index2.ts invocation: exactly the
extracted text of the selected user message is appended. -/
theorem run2_userContents (db : DB) (chatId : Nat) (msgs : List InMessage)
    (um : InMessage) (frags : List String)
    (h : currentUserMessage msgs = some um) :
    userContents (handleChatMessages2 db chatId msgs (Gen2Env.all2Ok frags)).db
      = userContents db ++ [index2ExtractText um] := by
  simp only [handleChatMessages2, h]
  by_cases hb : isBlank ((streamLoop frags).2)
  · simp [hb, userContents_touch, userContents_insert_user]
  · simp [hb, userContents_touch, userContents_insert_assistant,
      userContents_insert_user]

/-- Inserting a message does not change the clock beyond one tick. -/
theorem insertMessage_now (db : DB) (chatId : Nat) (r c : String) :
    (insertMessage db chatId r c).now = db.now + 1 := rfl

/-- Touching a chat whose row is present strictly increases the updated
timestamp of that row, provided the row does not postdate the clock. -/
theorem touchChat_bump (db : DB) (chatId : Nat) (c : Chat)
    (hc : c ∈ db.chats) (hcid : c.id = chatId) (hle : c.updated_at ≤ db.now) :
    ∃ c', c' ∈ (touchChat db chatId).chats ∧ c'.id = chatId
      ∧ c.updated_at < c'.updated_at := by
  refine ⟨{ c with updated_at := db.now + 1 }, ?_, by simpa using hcid,
    show c.updated_at < db.now + 1 by omega⟩
  unfold touchChat
  simp only [DB.tick]
  have hfn :
      (fun x => if x.id == chatId then { x with updated_at := db.now + 1 }
        else x) c = { c with updated_at := db.now + 1 } := by
    simp [hcid]
  exact hfn ▸ List.mem_map_of_mem _ hc

/-- Touching a chat does not change the chat titles. -/
theorem map_title_touch (db : DB) (chatId : Nat) :
    (touchChat db chatId).chats.map (fun c => c.title)
      = db.chats.map (fun c => c.title) := by
  simp only [touchChat, DB.tick, List.map_map]
  refine List.map_congr_left ?_
  intro a _
  by_cases ha : a.id = chatId <;> simp [ha]

/-- The handler never changes the titles of the chats table, whatever the
environment does. -/
theorem run_chats_titles (db : DB) (chatId : Nat) (msgs : List InMessage)
    (env : GenEnv) :
    (handleChatMessages db chatId msgs env).db.chats.map (fun c => c.title)
      = db.chats.map (fun c => c.title) := by
  cases hm : currentUserMessage msgs with
  | none => simp [handleChatMessages, hm]
  | some um =>
    cases env <;>
      simp only [handleChatMessages, hm] <;>
      (try split) <;>
      simp [map_title_touch, insertMessage_chats]

/-- The slice of the first n characters has length at most n. -/
theorem sliceTo_length_le (n : Nat) (s : String) :
    (sliceTo n s).length ≤ n :=
  List.length_take_le n s.data

/-- The computed chat title never exceeds 50 characters. -/
theorem chatTitle_length_le (msgs : List InMessage) :
    (chatTitle msgs).length ≤ 50 := by
  unfold chatTitle
  cases msgs.find? (fun m => m.role == "user") with
  | none => decide
  | some m =>
    show (if sliceTo 50 (partsText m) ≠ "" then sliceTo 50 (partsText m)
        else if sliceTo 50 (contentText m) ≠ "" then sliceTo 50 (contentText m)
        else "New Chat").length ≤ 50
    by_cases h1 : sliceTo 50 (partsText m) ≠ ""
    · rw [if_pos h1]
      exact sliceTo_length_le 50 (partsText m)
    · by_cases h2 : sliceTo 50 (contentText m) ≠ ""
      · rw [if_neg h1, if_pos h2]
        exact sliceTo_length_le 50 (contentText m)
      · rw [if_neg h1, if_neg h2]
        decide

/-- A sixty character flat user message yields the fifty character slice
as title. -/
theorem chatTitle_sixty (s : String) (hs : s.length = 60) :
    chatTitle [⟨"user", none, some s⟩] = sliceTo 50 s
    ∧ (chatTitle [⟨"user", none, some s⟩]).length = 50 := by
  have hdata : s.data.length = 60 := hs
  have hne : sliceTo 50 s ≠ "" := by
    intro he
    have hlen : (sliceTo 50 s).length = 0 := by rw [he]; rfl
    have hlen' : (s.data.take 50).length = 0 := hlen
    rw [List.length_take] at hlen'
    omega
  have hzero : ¬(sliceTo 50 (partsText ⟨"user", none, some s⟩) ≠ "") :=
    fun hcc => hcc rfl
  have htitle : chatTitle [⟨"user", none, some s⟩] = sliceTo 50 s := by
    show (if sliceTo 50 (partsText ⟨"user", none, some s⟩) ≠ ""
        then sliceTo 50 (partsText ⟨"user", none, some s⟩)
        else if sliceTo 50 (contentText ⟨"user", none, some s⟩) ≠ ""
          then sliceTo 50 (contentText ⟨"user", none, some s⟩)
          else "New Chat") = sliceTo 50 s
    rw [if_neg hzero,
      if_pos (show sliceTo 50 (contentText ⟨"user", none, some s⟩) ≠ "" from hne)]
    rfl
  refine ⟨htitle, ?_⟩
  rw [htitle]
  show (s.data.take 50).length = 50
  rw [List.length_take]
  omega

/-- C10: a fragment whose content is the empty string produces no
text-delta event and is not appended to the accumulator, so the streaming
loop behaves as if the fragment were absent; and the accumulated text still
equals the concatenation of all fragments, empty ones included. -/
theorem c10_empty_fragment_dropped (xs ys : List String) :
    streamLoop (xs ++ [""] ++ ys) = streamLoop (xs ++ ys)
    ∧ (streamLoop (xs ++ [""] ++ ys)).2 = concatFragments (xs ++ [""] ++ ys) := by
  constructor
  · rw [streamLoop_eq, streamLoop_eq]
    simp [List.filter_append]
  · rw [streamLoop_eq]
    exact concatFragments_filter_ne _

/-- C1 counterexample: with the fragment sequence consisting of the empty
fragment followed by a single space, the handler emits only one text-delta
event rather than one per fragment, and although the concatenation of all
fragments is the non-empty string of one space, no assistant message is
persisted at all. -/
theorem c1_counterexample :
    (handleChatMessages db0 0 [msgHi] (GenEnv.allOk ["", " "])).resp
      = Response.stream ⟨sseHeaders 0,
          [SSEEvent.textDelta " ", SSEEvent.done], true⟩
    ∧ (handleChatMessages db0 0 [msgHi] (GenEnv.allOk ["", " "])).resp
      ≠ Response.stream ⟨sseHeaders 0,
          [SSEEvent.textDelta "", SSEEvent.textDelta " ", SSEEvent.done], true⟩
    ∧ concatFragments ["", " "] = " "
    ∧ assistantContents (handleChatMessages db0 0 [msgHi]
        (GenEnv.allOk ["", " "])).db = [] := by
  decide

/-- C1 amended: during one successful send-message invocation the handler
emits one text-delta event per non-empty fragment, in exactly the
generation order, followed by the terminal DONE marker; and the assistant
message persisted afterwards (present exactly when the concatenation of
the fragments contains a non-whitespace character) equals the left-to-right
concatenation of all fragments. -/
theorem c1_stream_order (db : DB) (chatId : Nat) (msgs : List InMessage)
    (frags : List String) (h : (currentUserMessage msgs).isSome) :
    (handleChatMessages db chatId msgs (GenEnv.allOk frags)).resp
      = Response.stream ⟨sseHeaders chatId,
          ((frags.filter (fun c => c != "")).map SSEEvent.textDelta)
            ++ [SSEEvent.done], true⟩
    ∧ assistantContents (handleChatMessages db chatId msgs
        (GenEnv.allOk frags)).db
      = assistantContents db
        ++ (if isBlank (concatFragments frags) then []
            else [concatFragments frags]) := by
  obtain ⟨um, hum⟩ := Option.isSome_iff_exists.mp h
  constructor
  · simp [handleChatMessages, hum, streamLoop_eq]
  · exact run_assistantContents db chatId msgs um frags hum

/-- C1 witness: the five fragments A to E yield the five text-delta events
in order followed by DONE, and the persisted assistant content is the
concatenation ABCDE. -/
theorem c1_stream_order_witness :
    (currentUserMessage [msgHi]).isSome = true
    ∧ ((handleChatMessages db0 0 [msgHi]
          (GenEnv.allOk ["A", "B", "C", "D", "E"])).resp
        = Response.stream ⟨sseHeaders 0,
            ((["A", "B", "C", "D", "E"].filter (fun c => c != "")).map
              SSEEvent.textDelta) ++ [SSEEvent.done], true⟩
      ∧ assistantContents (handleChatMessages db0 0 [msgHi]
          (GenEnv.allOk ["A", "B", "C", "D", "E"])).db
        = assistantContents db0
          ++ (if isBlank (concatFragments ["A", "B", "C", "D", "E"]) then []
              else [concatFragments ["A", "B", "C", "D", "E"]])) :=
  ⟨by decide, c1_stream_order db0 0 [msgHi] ["A", "B", "C", "D", "E"] (by decide)⟩

/-- C2 counterexample: sending an empty batch (no user entry) to POST /chat
answers 400, yet a chat row has been created: the route inserts the new
chat before the handler checks for a user message. -/
theorem c2_counterexample :
    (postChatNew emptyDB [] (GenEnv.allOk [])).resp
      = Response.json 400 "No user message provided" none
    ∧ (postChatNew emptyDB [] (GenEnv.allOk [])).db.chats
      = [⟨0, "New Chat", 1, 1⟩]
    ∧ emptyDB.chats = [] := by
  decide

/-- C2 amended: a batch with no user entry is answered 400 with no message
row inserted on either send route; POST /chat/:chatId on an existing chat
leaves the state fully unchanged, but POST /chat first creates one new
chat row (titled by the usual title rule, hence New Chat) before failing. -/
theorem c2_no_user_message (db : DB) (chatId : Nat) (msgs : List InMessage)
    (env : GenEnv) (h : currentUserMessage msgs = none) :
    (chatExists db chatId = true →
      postChatExisting db chatId msgs env
        = ⟨Response.json 400 "No user message provided" none, db, none⟩)
    ∧ (postChatNew db msgs env).resp
      = Response.json 400 "No user message provided" none
    ∧ (postChatNew db msgs env).db.messages = db.messages
    ∧ (postChatNew db msgs env).db.chats
      = db.chats ++ [(insertChat db (chatTitle msgs)).2] := by
  refine ⟨fun hex => ?_, ?_, ?_, ?_⟩ <;>
    simp [postChatExisting, postChatNew, handleChatMessages, h, insertChat,
      DB.tick, *]

/-- C2 witness: the empty batch on a one-chat database is answered 400 on
both routes, no message row appears, and only the POST /chat route adds a
chat row. -/
theorem c2_no_user_message_witness :
    currentUserMessage ([] : List InMessage) = none
    ∧ postChatExisting db0 0 [] (GenEnv.allOk [])
      = ⟨Response.json 400 "No user message provided" none, db0, none⟩
    ∧ (postChatNew db0 [] (GenEnv.allOk [])).resp
      = Response.json 400 "No user message provided" none
    ∧ (postChatNew db0 [] (GenEnv.allOk [])).db.messages = db0.messages
    ∧ (postChatNew db0 [] (GenEnv.allOk [])).db.chats
      = db0.chats ++ [(insertChat db0 (chatTitle [])).2] := by
  have h := c2_no_user_message db0 0 [] (GenEnv.allOk []) (by decide)
  exact ⟨by decide, h.1 (by decide), h.2.1, h.2.2.1, h.2.2.2⟩

/-- C4 counterexample: a user message whose text sits only in the
structured parts array is persisted by server.ts with empty content and
rendered empty in the model context, although the claimed extraction rule
yields the parts text Hello. -/
theorem c4_counterexample :
    userContents (handleChatMessages db0 0 [msgParts]
      (GenEnv.allOk ["X"])).db = [""]
    ∧ extractTextSpec msgParts = "Hello"
    ∧ (handleChatMessages db0 0 [msgParts] (GenEnv.allOk ["X"])).contextSent
      = some "You are a helpful AI assistant. Here is the conversation history:\n\nuser: \n\nassistant:"
    ∧ ("" : String) ≠ "Hello" := by
  decide

/-- C4 amended: the claimed extraction rule (parts text preferred, else
flat content, else empty) is the one index2.ts uses, for persistence and
for the model context alike; server.ts instead uses the flat content field
alone (empty when absent) and ignores the parts array. -/
theorem c4_extraction (db : DB) (chatId : Nat) (msgs : List InMessage)
    (um : InMessage) (frags : List String)
    (h : currentUserMessage msgs = some um) :
    userContents (handleChatMessages db chatId msgs (GenEnv.allOk frags)).db
      = userContents db ++ [contentText um]
    ∧ userContents (handleChatMessages2 db chatId msgs (Gen2Env.all2Ok frags)).db
      = userContents db ++ [extractTextSpec um]
    ∧ index2ExtractText um = extractTextSpec um
    ∧ serverExtractText um = contentText um := by
  exact ⟨run_userContents db chatId msgs um frags h,
    run2_userContents db chatId msgs um frags h, rfl, rfl⟩

/-- C4 witness: on a parts-only user message the server.ts route persists
the empty string while the index2.ts route persists the parts text. -/
theorem c4_extraction_witness :
    currentUserMessage [msgParts] = some msgParts
    ∧ (userContents (handleChatMessages db0 0 [msgParts]
          (GenEnv.allOk ["X"])).db
        = userContents db0 ++ [contentText msgParts]
      ∧ userContents (handleChatMessages2 db0 0 [msgParts]
          (Gen2Env.all2Ok ["X"])).db
        = userContents db0 ++ [extractTextSpec msgParts]
      ∧ index2ExtractText msgParts = extractTextSpec msgParts
      ∧ serverExtractText msgParts = contentText msgParts) :=
  ⟨by decide, c4_extraction db0 0 [msgParts] msgParts ["X"] (by decide)⟩

/-- C5 counterexample: in the index2.ts run the context sent to the model
repeats the just-inserted user message (user: Hi appears twice), so it is
not the claimed rendering in which each history entry appears exactly
once. -/
theorem c5_counterexample :
    (handleChatMessages2 db0 0 [msgHi] (Gen2Env.all2Ok ["X"])).contextSent
      = some "You are a helpful AI assistant. Here is the conversation history:\n\nuser: Hi\n\nuser: Hi\n\nassistant:"
    ∧ (handleChatMessages2 db0 0 [msgHi] (Gen2Env.all2Ok ["X"])).contextSent
      ≠ some (specContext (listMessages
          (insertMessage db0 0 "user" (index2ExtractText msgHi)) 0)) := by
  decide

/-- C5 amended: the context sent by server.ts is exactly the fixed
preamble, each entry of the stored history (user message included) rendered
once as role: content separated by blank lines, and the trailing assistant
cue; index2.ts sends that same rendering of the history with the current
user message text appended once more before the cue. -/
theorem c5_context (db : DB) (chatId : Nat) (msgs : List InMessage)
    (um : InMessage) (frags : List String)
    (h : currentUserMessage msgs = some um) :
    (handleChatMessages db chatId msgs (GenEnv.allOk frags)).contextSent
      = some (specContext (listMessages
          (insertMessage db chatId "user" (serverExtractText um)) chatId))
    ∧ (handleChatMessages2 db chatId msgs (Gen2Env.all2Ok frags)).contextSent
      = some (preamble
          ++ concatFragments ((listMessages
              (insertMessage db chatId "user" (index2ExtractText um))
              chatId).map renderEntry)
          ++ ("user: " ++ index2ExtractText um ++ "\n\n") ++ "assistant:") := by
  constructor
  · simp [handleChatMessages, h, buildContext_eq_specContext]
  · simp [handleChatMessages2, h, buildContext2_eq]

/-- C5 witness: concrete send of Hi to the chat of db0 under both
handlers. -/
theorem c5_context_witness :
    currentUserMessage [msgHi] = some msgHi
    ∧ ((handleChatMessages db0 0 [msgHi] (GenEnv.allOk ["X"])).contextSent
        = some (specContext (listMessages
            (insertMessage db0 0 "user" (serverExtractText msgHi)) 0))
      ∧ (handleChatMessages2 db0 0 [msgHi] (Gen2Env.all2Ok ["X"])).contextSent
        = some (preamble
            ++ concatFragments ((listMessages
                (insertMessage db0 0 "user" (index2ExtractText msgHi))
                0).map renderEntry)
            ++ ("user: " ++ index2ExtractText msgHi ++ "\n\n")
            ++ "assistant:")) :=
  ⟨by decide, c5_context db0 0 [msgHi] msgHi ["X"] (by decide)⟩

/-- C6 counterexample: a stream yielding only the one-space fragment
completes normally; the accumulated text is non-empty, yet no assistant
message is persisted, because the source tests trimmed truthiness rather
than non-emptiness. -/
theorem c6_counterexample :
    (handleChatMessages db0 0 [msgHi] (GenEnv.allOk [" "])).resp
      = Response.stream ⟨sseHeaders 0,
          [SSEEvent.textDelta " ", SSEEvent.done], true⟩
    ∧ concatFragments [" "] ≠ ""
    ∧ assistantContents (handleChatMessages db0 0 [msgHi]
        (GenEnv.allOk [" "])).db = [] := by
  decide

/-- C6 amended: on normal stream completion the terminal DONE marker is
emitted and the output channel is closed; the accumulated text is persisted
as a new assistant message exactly when it contains a non-whitespace
character (not merely when non-empty); and the updated timestamp of the
chat is bumped strictly, also when nothing is persisted. -/
theorem c6_completion (db : DB) (chatId : Nat) (msgs : List InMessage)
    (um : InMessage) (frags : List String) (c : Chat)
    (h : currentUserMessage msgs = some um)
    (hwf : db.wf) (hc : c ∈ db.chats) (hcid : c.id = chatId) :
    (handleChatMessages db chatId msgs (GenEnv.allOk frags)).resp
      = Response.stream ⟨sseHeaders chatId,
          (streamLoop frags).1 ++ [SSEEvent.done], true⟩
    ∧ assistantContents (handleChatMessages db chatId msgs
        (GenEnv.allOk frags)).db
      = assistantContents db
        ++ (if isBlank (concatFragments frags) then []
            else [concatFragments frags])
    ∧ ∃ c', c' ∈ (handleChatMessages db chatId msgs
          (GenEnv.allOk frags)).db.chats
        ∧ c'.id = chatId ∧ c.updated_at < c'.updated_at := by
  refine ⟨by simp [handleChatMessages, h],
    run_assistantContents db chatId msgs um frags h, ?_⟩
  simp only [handleChatMessages, h]
  have hle : c.updated_at ≤ db.now := ((hwf.1 c hc).2).1
  by_cases hb : isBlank ((streamLoop frags).2)
  · simp only [hb, if_true]
    exact touchChat_bump _ chatId c hc hcid (by simp [insertMessage_now]; omega)
  · simp only [hb, if_false, Bool.false_eq_true]
    refine touchChat_bump _ chatId c ?_ hcid ?_
    · simpa [insertMessage_chats] using hc
    · simp [insertMessage_now]
      omega

/-- C6 witness: an empty fragment sequence still bumps the chat timestamp
and persists nothing. -/
theorem c6_completion_witness :
    (currentUserMessage [msgHi] = some msgHi ∧ db0.wf
        ∧ (⟨0, "T", 1, 1⟩ : Chat) ∈ db0.chats ∧ (⟨0, "T", 1, 1⟩ : Chat).id = 0)
    ∧ ((handleChatMessages db0 0 [msgHi] (GenEnv.allOk [])).resp
        = Response.stream ⟨sseHeaders 0,
            (streamLoop []).1 ++ [SSEEvent.done], true⟩
      ∧ assistantContents (handleChatMessages db0 0 [msgHi]
          (GenEnv.allOk [])).db
        = assistantContents db0
          ++ (if isBlank (concatFragments []) then []
              else [concatFragments []])
      ∧ ∃ c', c' ∈ (handleChatMessages db0 0 [msgHi]
            (GenEnv.allOk [])).db.chats
          ∧ c'.id = 0 ∧ (⟨0, "T", 1, 1⟩ : Chat).updated_at < c'.updated_at) :=
  ⟨⟨by decide, by decide, by decide, by decide⟩,
    c6_completion db0 0 [msgHi] msgHi [] ⟨0, "T", 1, 1⟩ (by decide) (by decide)
      (by decide) (by decide)⟩

/-- C3 counterexample: in index2.ts a model-call failure that happens
before any output byte was sent (model.stream is awaited before writeHead)
is answered by writing the in-stream error event with the platform default
headers, not by the structured HTTP 500 JSON error body the claim
requires. -/
theorem c3_counterexample :
    (handleChatMessages2 db0 0 [msgHi] (Gen2Env.streamOpenFails "boom")).resp
      = Response.stream ⟨[], [SSEEvent.errEvent "boom"], true⟩
    ∧ Response.isJson (handleChatMessages2 db0 0 [msgHi]
        (Gen2Env.streamOpenFails "boom")).resp = false := by
  decide

/-- C3 amended: in server.ts each caught failure before the headers are
written (the user insert and the history reselect) yields the structured
500 JSON body, and each failure after streaming began yields an in-stream
error event before the stream is closed; in index2.ts every caught
streaming-phase failure yields an in-stream error event and stream close,
including a model-call failure occurring before any output was sent, which
therefore does not produce a 500 JSON body.  In every case the failure
surfaces in the response before the connection closes. -/
theorem c3_error_paths (db : DB) (chatId : Nat) (msgs : List InMessage)
    (um : InMessage) (msg : String) (before frags : List String)
    (h : currentUserMessage msgs = some um) :
    (handleChatMessages db chatId msgs (GenEnv.userInsertFails msg)).resp
      = Response.json 500 "AI Service Error" (some msg)
    ∧ (handleChatMessages db chatId msgs (GenEnv.historySelectFails msg)).resp
      = Response.json 500 "AI Service Error" (some msg)
    ∧ (handleChatMessages db chatId msgs (GenEnv.genFails before msg)).resp
      = Response.stream ⟨sseHeaders chatId,
          (streamLoop before).1 ++ [SSEEvent.errEvent msg], true⟩
    ∧ (isBlank ((streamLoop frags).2) = false →
        (handleChatMessages db chatId msgs
          (GenEnv.assistantInsertFails frags msg)).resp
        = Response.stream ⟨sseHeaders chatId,
            (streamLoop frags).1 ++ [SSEEvent.done, SSEEvent.errEvent msg],
            true⟩)
    ∧ (handleChatMessages db chatId msgs (GenEnv.touchFails frags msg)).resp
      = Response.stream ⟨sseHeaders chatId,
          (streamLoop frags).1 ++ [SSEEvent.done, SSEEvent.errEvent msg],
          true⟩
    ∧ (handleChatMessages2 db chatId msgs (Gen2Env.gen2Fails before msg)).resp
      = Response.stream ⟨sseHeaders chatId,
          (streamLoop before).1 ++ [SSEEvent.errEvent msg], true⟩
    ∧ (handleChatMessages2 db chatId msgs (Gen2Env.streamOpenFails msg)).resp
      = Response.stream ⟨[], [SSEEvent.errEvent msg], true⟩
    ∧ Response.isJson (handleChatMessages2 db chatId msgs
        (Gen2Env.streamOpenFails msg)).resp = false := by
  refine ⟨?_, ?_, ?_, fun hb => ?_, ?_, ?_, ?_, ?_⟩ <;>
    simp [handleChatMessages, handleChatMessages2, Response.isJson, h, *]

/-- C3 witness: concrete failure runs for every branch of the error
handling, on the one-chat database. -/
theorem c3_error_paths_witness :
    (currentUserMessage [msgHi] = some msgHi
      ∧ isBlank ((streamLoop ["B"]).2) = false)
    ∧ ((handleChatMessages db0 0 [msgHi] (GenEnv.userInsertFails "boom")).resp
        = Response.json 500 "AI Service Error" (some "boom")
      ∧ (handleChatMessages db0 0 [msgHi]
          (GenEnv.historySelectFails "boom")).resp
        = Response.json 500 "AI Service Error" (some "boom")
      ∧ (handleChatMessages db0 0 [msgHi] (GenEnv.genFails ["A"] "boom")).resp
        = Response.stream ⟨sseHeaders 0,
            (streamLoop ["A"]).1 ++ [SSEEvent.errEvent "boom"], true⟩
      ∧ (handleChatMessages db0 0 [msgHi]
          (GenEnv.assistantInsertFails ["B"] "boom")).resp
        = Response.stream ⟨sseHeaders 0,
            (streamLoop ["B"]).1 ++ [SSEEvent.done, SSEEvent.errEvent "boom"],
            true⟩
      ∧ (handleChatMessages db0 0 [msgHi] (GenEnv.touchFails ["B"] "boom")).resp
        = Response.stream ⟨sseHeaders 0,
            (streamLoop ["B"]).1 ++ [SSEEvent.done, SSEEvent.errEvent "boom"],
            true⟩
      ∧ (handleChatMessages2 db0 0 [msgHi] (Gen2Env.gen2Fails ["A"] "boom")).resp
        = Response.stream ⟨sseHeaders 0,
            (streamLoop ["A"]).1 ++ [SSEEvent.errEvent "boom"], true⟩
      ∧ (handleChatMessages2 db0 0 [msgHi] (Gen2Env.streamOpenFails "boom")).resp
        = Response.stream ⟨[], [SSEEvent.errEvent "boom"], true⟩
      ∧ Response.isJson (handleChatMessages2 db0 0 [msgHi]
          (Gen2Env.streamOpenFails "boom")).resp = false) := by
  have h := c3_error_paths db0 0 [msgHi] msgHi "boom" ["A"] ["B"] (by decide)
  exact ⟨⟨by decide, by decide⟩, h.1, h.2.1, h.2.2.1, h.2.2.2.1 (by decide),
    h.2.2.2.2.1, h.2.2.2.2.2.1, h.2.2.2.2.2.2.1, h.2.2.2.2.2.2.2⟩

/-- C7: every POST /chat request creates exactly one new chat row, titled
by the first user entry of the batch (its text sliced to at most 50
characters, parts text preferred over flat content) or New Chat when no
user text exists; titles never exceed 50 characters; a sixty character
first user message yields a fifty character title; and whenever the
response is an event stream its headers carry the fresh chat id in
X-Chat-Id. -/
theorem c7_new_chat (db : DB) (msgs : List InMessage) (env : GenEnv)
    (frags : List String) (s : String) (out : StreamOut)
    (hs : s.length = 60)
    (hresp : (postChatNew db msgs (GenEnv.allOk frags)).resp
      = Response.stream out) :
    (postChatNew db msgs env).db.chats.map (fun c => c.title)
      = db.chats.map (fun c => c.title) ++ [chatTitle msgs]
    ∧ (chatTitle msgs).length ≤ 50
    ∧ chatTitle [⟨"user", none, some s⟩] = sliceTo 50 s
    ∧ (chatTitle [⟨"user", none, some s⟩]).length = 50
    ∧ ("X-Chat-Id", toString db.nextChatId) ∈ out.headers := by
  refine ⟨?_, chatTitle_length_le msgs, (chatTitle_sixty s hs).1,
    (chatTitle_sixty s hs).2, ?_⟩
  · unfold postChatNew
    rw [run_chats_titles]
    simp [insertChat, DB.tick]
  · unfold postChatNew at hresp
    cases hm : currentUserMessage msgs with
    | none => simp [handleChatMessages, hm] at hresp
    | some um =>
      simp only [handleChatMessages, hm] at hresp
      rw [Response.stream.injEq] at hresp
      rw [← hresp]
      simp [sseHeaders, insertChat, DB.tick]

/-- C7 witness: a concrete POST /chat run on the one-chat database with the
sixty character message checked separately. -/
theorem c7_new_chat_witness :
    (s60.length = 60
      ∧ (postChatNew db0 [msgHi] (GenEnv.allOk ["X"])).resp
        = Response.stream out0)
    ∧ ((postChatNew db0 [msgHi] (GenEnv.allOk ["X"])).db.chats.map
          (fun c => c.title)
        = db0.chats.map (fun c => c.title) ++ [chatTitle [msgHi]]
      ∧ (chatTitle [msgHi]).length ≤ 50
      ∧ chatTitle [⟨"user", none, some s60⟩] = sliceTo 50 s60
      ∧ (chatTitle [⟨"user", none, some s60⟩]).length = 50
      ∧ ("X-Chat-Id", toString db0.nextChatId) ∈ out0.headers) :=
  ⟨⟨by decide, by decide⟩,
    c7_new_chat db0 [msgHi] (GenEnv.allOk ["X"]) ["X"] s60 out0
      (by decide) (by decide)⟩

/-- C9: deleting a chat answers 204 whether or not the chat exists, leaves
no message row of that chat behind, is idempotent on the state, and a
subsequent read of the chat answers not-found rather than an empty
message list. -/
theorem c9_delete (db : DB) (chatId : Nat) :
    (deleteChatRoute db chatId).1 = 204
    ∧ (deleteChat db chatId).messages.filter
        (fun m => m.chat_id == chatId) = []
    ∧ deleteChat (deleteChat db chatId) chatId = deleteChat db chatId
    ∧ deleteChatRoute (deleteChat db chatId) chatId
      = (204, deleteChat db chatId)
    ∧ getChat (deleteChat db chatId) chatId = GetChatResult.notFound := by
  have hidem : deleteChat (deleteChat db chatId) chatId
      = deleteChat db chatId := by
    simp [deleteChat, List.filter_filter]
  refine ⟨rfl, ?_, hidem, ?_, ?_⟩
  · simp [deleteChat, List.filter_filter]
  · simp [deleteChatRoute, hidem]
  · simp only [getChat, deleteChat]
    rw [List.find?_eq_none.mpr]
    · intro x hx
      have hmem := List.mem_filter.mp hx
      simpa using hmem.2

/-- The fresh database is well formed. -/
theorem wf_emptyDB : emptyDB.wf := by
  constructor
  · intro c hc
    simp [emptyDB] at hc
  · simp [emptyDB]

/-- Chat insertion preserves well-formedness. -/
theorem wf_insertChat (db : DB) (t : String) (h : db.wf) :
    (insertChat db t).1.wf := by
  obtain ⟨h1, h2⟩ := h
  refine ⟨?_, ?_⟩
  · intro c hc
    simp only [insertChat, DB.tick] at hc ⊢
    rcases List.mem_append.mp hc with hc | hc
    · have h3 := h1 c hc
      exact ⟨h3.1, by omega, by omega⟩
    · rcases List.mem_singleton.mp hc with rfl
      exact ⟨le_refl _, le_refl _, Nat.lt_succ_self _⟩
  · simp only [insertChat, DB.tick, List.map_append]
    rw [List.nodup_append]
    refine ⟨h2, List.nodup_singleton _, ?_⟩
    intro a ha hb
    simp only [List.map_cons, List.map_nil, List.mem_singleton] at hb
    obtain ⟨c, hc, rfl⟩ := List.mem_map.mp ha
    have := (h1 c hc).2.2
    omega

/-- Message insertion preserves well-formedness. -/
theorem wf_insertMessage (db : DB) (chatId : Nat) (r t : String) (h : db.wf) :
    (insertMessage db chatId r t).wf := by
  obtain ⟨h1, h2⟩ := h
  refine ⟨?_, h2⟩
  intro c hc
  simp only [insertMessage, DB.tick] at hc ⊢
  have h3 := h1 c hc
  exact ⟨h3.1, by omega, h3.2.2⟩

/-- A chat-row update that preserves ids and created timestamps and keeps
updated timestamps within the advanced clock preserves well-formedness. -/
theorem wf_mapBump (db : DB) (g : Chat → Chat)
    (hgid : ∀ c, (g c).id = c.id)
    (hgcr : ∀ c, (g c).created_at = c.created_at)
    (hgup : ∀ c ∈ db.chats,
      c.created_at ≤ (g c).updated_at ∧ (g c).updated_at ≤ db.now + 1)
    (h : db.wf) :
    DB.wf ⟨db.chats.map g, db.messages, db.nextChatId, db.nextMsgId,
      db.now + 1⟩ := by
  obtain ⟨h1, h2⟩ := h
  refine ⟨?_, ?_⟩
  · intro c hc
    obtain ⟨a, ha, rfl⟩ := List.mem_map.mp hc
    have h3 := h1 a ha
    have h4 := hgup a ha
    refine ⟨?_, h4.2, ?_⟩
    · rw [hgcr]
      exact h4.1
    · rw [hgid]
      exact h3.2.2
  · rw [List.map_map]
    have hmaps : db.chats.map ((fun c => c.id) ∘ g)
        = db.chats.map (fun c => c.id) :=
      List.map_congr_left (fun a _ => hgid a)
    rw [hmaps]
    exact h2

/-- Touching a chat preserves well-formedness. -/
theorem wf_touchChat (db : DB) (chatId : Nat) (h : db.wf) :
    (touchChat db chatId).wf := by
  refine wf_mapBump db _ ?_ ?_ ?_ h
  · intro a
    by_cases ha : a.id = chatId <;> simp [ha]
  · intro a
    by_cases ha : a.id = chatId <;> simp [ha]
  · intro a ha
    have h3 := h.1 a ha
    by_cases hid : a.id = chatId <;> simp [hid, DB.tick] <;> omega

/-- A title update preserves well-formedness. -/
theorem wf_updateChatTitle (db : DB) (chatId : Nat) (t : String) (h : db.wf) :
    (updateChatTitle db chatId t).wf := by
  refine wf_mapBump db _ ?_ ?_ ?_ h
  · intro a
    by_cases ha : a.id = chatId <;> simp [ha]
  · intro a
    by_cases ha : a.id = chatId <;> simp [ha]
  · intro a ha
    have h3 := h.1 a ha
    by_cases hid : a.id = chatId <;> simp [hid, DB.tick] <;> omega

/-- Chat deletion preserves well-formedness. -/
theorem wf_deleteChat (db : DB) (chatId : Nat) (h : db.wf) :
    (deleteChat db chatId).wf := by
  obtain ⟨h1, h2⟩ := h
  refine ⟨?_, ?_⟩
  · intro c hc
    simp only [deleteChat] at hc ⊢
    exact h1 c (List.mem_filter.mp hc).1
  · simp only [deleteChat]
    exact List.Nodup.sublist
      (List.Sublist.map _ (List.filter_sublist _)) h2

/-- Every store operation preserves well-formedness. -/
theorem wf_applyOp (db : DB) (op : StoreOp) (h : db.wf) :
    (applyOp db op).wf := by
  cases op with
  | createChat t => exact wf_insertChat db t h
  | retitle id t => exact wf_updateChatTitle db id t h
  | sendExchange id txt frags =>
    simp only [applyOp]
    by_cases hb : isBlank ((streamLoop frags).2)
    · simp only [hb, if_true]
      exact wf_touchChat _ id (wf_insertMessage db id "user" txt h)
    · simp only [hb, if_false, Bool.false_eq_true]
      exact wf_touchChat _ id (wf_insertMessage _ id "assistant" _
        (wf_insertMessage db id "user" txt h))
  | removeChat id => exact wf_deleteChat db id h

/-- Every operation sequence preserves well-formedness. -/
theorem wf_applyOps (ops : List StoreOp) (db : DB) (h : db.wf) :
    (applyOps db ops).wf := by
  induction ops generalizing db with
  | nil => exact h
  | cons op ops ih => exact ih _ (wf_applyOp db op h)

/-- With distinct ids, a chat row is determined by its id. -/
theorem chat_id_inj (l : List Chat) (hnd : (l.map (fun c => c.id)).Nodup)
    (c c' : Chat) (hc : c ∈ l) (hc' : c' ∈ l) (heq : c'.id = c.id) :
    c' = c :=
  List.inj_on_of_nodup_map hnd hc' hc heq

/-- A row surviving an id- and created-preserving map keeps its created
timestamp. -/
theorem created_eq_map (l : List Chat) (g : Chat → Chat)
    (hgid : ∀ a, (g a).id = a.id) (hgcr : ∀ a, (g a).created_at = a.created_at)
    (hnd : (l.map (fun c => c.id)).Nodup)
    (c c' : Chat) (hc : c ∈ l) (hc' : c' ∈ l.map g) (heq : c'.id = c.id) :
    c'.created_at = c.created_at := by
  obtain ⟨a, ha, rfl⟩ := List.mem_map.mp hc'
  have h5 : a.id = c.id := by
    rw [← hgid a]
    exact heq
  have h6 : a = c := chat_id_inj l hnd c a hc ha h5
  subst h6
  exact hgcr a

/-- No store operation changes the created timestamp of a surviving chat
row. -/
theorem created_immutable (db : DB) (op : StoreOp) (c c' : Chat)
    (h : db.wf) (hc : c ∈ db.chats) (hc' : c' ∈ (applyOp db op).chats)
    (heq : c'.id = c.id) : c'.created_at = c.created_at := by
  obtain ⟨h1, h2⟩ := h
  cases op with
  | createChat t =>
    simp only [applyOp, insertChat, DB.tick] at hc'
    rcases List.mem_append.mp hc' with hx | hx
    · rw [chat_id_inj db.chats h2 c c' hc hx heq]
    · exfalso
      rcases List.mem_singleton.mp hx with rfl
      have := (h1 c hc).2.2
      simp only at heq
      omega
  | retitle id t =>
    simp only [applyOp, updateChatTitle, DB.tick] at hc'
    refine created_eq_map db.chats _ ?_ ?_ h2 c c' hc hc' heq
    · intro a
      by_cases ha : a.id = id <;> simp [ha]
    · intro a
      by_cases ha : a.id = id <;> simp [ha]
  | sendExchange id txt frags =>
    have key : ∀ dbx : DB, dbx.chats = db.chats →
        c' ∈ (touchChat dbx id).chats → c'.created_at = c.created_at := by
      intro dbx hx hmem
      simp only [touchChat, DB.tick] at hmem
      rw [hx] at hmem
      refine created_eq_map db.chats _ ?_ ?_ h2 c c' hc hmem heq
      · intro a
        by_cases ha : a.id = id <;> simp [ha]
      · intro a
        by_cases ha : a.id = id <;> simp [ha]
    refine key (if isBlank ((streamLoop frags).2)
        then insertMessage db id "user" txt
        else insertMessage (insertMessage db id "user" txt) id "assistant"
          ((streamLoop frags).2)) ?_ ?_
    · by_cases hb : isBlank ((streamLoop frags).2) <;>
        simp [hb, insertMessage_chats]
    · simpa only [applyOp] using hc'
  | removeChat id =>
    simp only [applyOp, deleteChat] at hc'
    rw [chat_id_inj db.chats h2 c c' hc (List.mem_filter.mp hc').1 heq]

/-- A title update strictly bumps the updated timestamp of the affected
row and installs the new title. -/
theorem updateChatTitle_bump (db : DB) (chatId : Nat) (t : String) (c : Chat)
    (hc : c ∈ db.chats) (hcid : c.id = chatId) (hle : c.updated_at ≤ db.now) :
    ∃ c', c' ∈ (updateChatTitle db chatId t).chats ∧ c'.id = chatId
      ∧ c.updated_at < c'.updated_at ∧ c'.title = t := by
  refine ⟨{ c with title := t, updated_at := db.now + 1 }, ?_,
    by simpa using hcid, show c.updated_at < db.now + 1 by omega, rfl⟩
  unfold updateChatTitle
  simp only [DB.tick]
  have hfn : (fun x => if x.id == chatId
      then { x with title := t, updated_at := db.now + 1 } else x) c
      = { c with title := t, updated_at := db.now + 1 } := by
    simp [hcid]
  exact hfn ▸ List.mem_map_of_mem _ hc

/-- A completed message exchange strictly bumps the updated timestamp of
the affected row. -/
theorem sendExchange_bump (db : DB) (chatId : Nat) (txt : String)
    (frags : List String) (c : Chat) (hc : c ∈ db.chats) (hcid : c.id = chatId)
    (hle : c.updated_at ≤ db.now) :
    ∃ c', c' ∈ (applyOp db (StoreOp.sendExchange chatId txt frags)).chats
      ∧ c'.id = chatId ∧ c.updated_at < c'.updated_at := by
  simp only [applyOp]
  by_cases hb : isBlank ((streamLoop frags).2)
  · simp only [hb, if_true]
    exact touchChat_bump _ chatId c hc hcid (by simp [insertMessage_now]; omega)
  · simp only [hb, if_false, Bool.false_eq_true]
    refine touchChat_bump _ chatId c ?_ hcid ?_
    · simpa [insertMessage_chats] using hc
    · simp [insertMessage_now]
      omega

/-- C8: over every operation sequence from the fresh database every chat
row satisfies created_at at most updated_at; no operation changes the
created timestamp of a surviving chat row; and both a title update and a
completed message exchange strictly bump the updated timestamp of the
affected row. -/
theorem c8_timestamps :
    (∀ ops : List StoreOp, ∀ c ∈ (applyOps emptyDB ops).chats,
      c.created_at ≤ c.updated_at)
    ∧ (∀ (db : DB) (op : StoreOp) (c c' : Chat), db.wf → c ∈ db.chats →
        c' ∈ (applyOp db op).chats → c'.id = c.id →
        c'.created_at = c.created_at)
    ∧ (∀ (db : DB) (chatId : Nat) (t : String) (c : Chat), db.wf →
        c ∈ db.chats → c.id = chatId →
        ∃ c', c' ∈ (updateChatTitle db chatId t).chats ∧ c'.id = chatId
          ∧ c.updated_at < c'.updated_at ∧ c'.title = t)
    ∧ (∀ (db : DB) (chatId : Nat) (txt : String) (frags : List String)
        (c : Chat), db.wf → c ∈ db.chats → c.id = chatId →
        ∃ c', c' ∈ (applyOp db (StoreOp.sendExchange chatId txt frags)).chats
          ∧ c'.id = chatId ∧ c.updated_at < c'.updated_at) := by
  refine ⟨?_, ?_, ?_, ?_⟩
  · intro ops c hc
    exact ((wf_applyOps ops emptyDB wf_emptyDB).1 c hc).1
  · intro db op c c' hwf hc hc' heq
    exact created_immutable db op c c' hwf hc hc' heq
  · intro db chatId t c hwf hc hcid
    exact updateChatTitle_bump db chatId t c hc hcid ((hwf.1 c hc).2.1)
  · intro db chatId txt frags c hwf hc hcid
    exact sendExchange_bump db chatId txt frags c hc hcid ((hwf.1 c hc).2.1)

/-- C8 witness: the invariants checked on the one-chat database: a title
update and an exchange both bump the updated timestamp past 1, and a
retitled row keeps created timestamp 1. -/
theorem c8_timestamps_witness :
    ((⟨0, "T", 1, 1⟩ : Chat) ∈ (applyOps emptyDB [StoreOp.createChat "T"]).chats
      ∧ db0.wf ∧ (⟨0, "T", 1, 1⟩ : Chat) ∈ db0.chats
      ∧ (⟨0, "T2", 1, 2⟩ : Chat) ∈ (applyOp db0 (StoreOp.retitle 0 "T2")).chats
      ∧ (⟨0, "T2", 1, 2⟩ : Chat).id = (⟨0, "T", 1, 1⟩ : Chat).id
      ∧ (⟨0, "T", 1, 1⟩ : Chat).id = 0)
    ∧ (⟨0, "T", 1, 1⟩ : Chat).created_at ≤ (⟨0, "T", 1, 1⟩ : Chat).updated_at
    ∧ (⟨0, "T2", 1, 2⟩ : Chat).created_at = (⟨0, "T", 1, 1⟩ : Chat).created_at
    ∧ (∃ c', c' ∈ (updateChatTitle db0 0 "T2").chats ∧ c'.id = 0
        ∧ (⟨0, "T", 1, 1⟩ : Chat).updated_at < c'.updated_at ∧ c'.title = "T2")
    ∧ (∃ c', c' ∈ (applyOp db0 (StoreOp.sendExchange 0 "Hi" ["A"])).chats
        ∧ c'.id = 0 ∧ (⟨0, "T", 1, 1⟩ : Chat).updated_at < c'.updated_at) := by
  have h := c8_timestamps
  exact ⟨⟨by decide, by decide, by decide, by decide, by decide, by decide⟩,
    h.1 [StoreOp.createChat "T"] ⟨0, "T", 1, 1⟩ (by decide),
    h.2.1 db0 (StoreOp.retitle 0 "T2") ⟨0, "T", 1, 1⟩ ⟨0, "T2", 1, 2⟩
      (by decide) (by decide) (by decide) (by decide),
    h.2.2.1 db0 0 "T2" ⟨0, "T", 1, 1⟩ (by decide) (by decide) (by decide),
    h.2.2.2 db0 0 "Hi" ["A"] ⟨0, "T", 1, 1⟩ (by decide) (by decide) (by decide)⟩

end ChatBackend
